import Mathlib

/-!
Verification of the Dice-Game repository: a shallow embedding of the
fair-random commit/reveal protocol and the pairwise win-probability engine
(`src/game.js` and the second protocol variant `src/unnamed/part_000`),
together with proofs of the specified properties.
-/

namespace DiceGame

/-- `Dice.roll` from `game.js` lines 10–12: `roll(index)` returns
`this.values[index]`; a JavaScript out-of-range access yields `undefined`,
modelled as `none`. -/
def roll (values : List Int) (index : Nat) : Option Int :=
  values.get? index

/-- The modular combination `(userInput + computerValue) % n` computed in
`DiceGame.userThrow` (game.js line 134) and `DiceGame.computerThrow`
(game.js line 145). -/
def combinedResult (userInput computerValue n : Nat) : Nat :=
  (userInput + computerValue) % n

/-- Pure core of `DiceGame.userThrow` (game.js lines 128–137): combine the
counterpart's input with the committed secret value modulo the face count of
the user's die and roll that index. -/
def userThrow (values : List Int) (userInput computerValue : Nat) : Option Int :=
  roll values (combinedResult userInput computerValue values.length)

/-- Pure core of `DiceGame.computerThrow` (game.js lines 139–148): identical
computation on the computer's die. -/
def computerThrow (values : List Int) (userInput computerValue : Nat) : Option Int :=
  roll values (combinedResult userInput computerValue values.length)

/-- A JavaScript numeric result: either an actual natural number or `NaN`. -/
inductive JsNum
  | nan
  | val (n : Nat)
deriving DecidableEq

/-- `FairRandom.generateUniformRandom` (game.js lines 27–34), made explicit
over the stream of 32-bit entropy draws produced by
`crypto.randomBytes(4).readUInt32BE(0)`.  `none` means the finite stream was
exhausted before a draw was accepted.  For `max = 0` JavaScript computes
`limit = 2**32 - (2**32 % 0) = NaN`; the loop guard `rand >= NaN` is `false`,
so the first draw exits the loop and `rand % 0` evaluates to `NaN`. -/
def generateUniformRandom (max : Nat) : List Nat → Option JsNum
  | [] => none
  | rand :: rest =>
    if max = 0 then some .nan
    else if 2 ^ 32 - 2 ^ 32 % max ≤ rand then generateUniformRandom max rest
    else some (.val (rand % max))

/-- C1: for a die with `F = values.length` faces, a counterpart input and a
committed secret value both in `[0, F)`, the throw operation computes the
combined result `(input + secret) % F`, which lies in `[0, F)`, and returns
the face of the die at that index (both for `userThrow` and `computerThrow`);
in particular for `F = 6`, secret `3` and input `4` the selected index is `1`. -/
theorem throw_combined_in_range_selects_face (values : List Int)
    (userInput secretValue : Nat)
    (hu : userInput < values.length) (hs : secretValue < values.length) :
    ∃ h : combinedResult userInput secretValue values.length < values.length,
      userThrow values userInput secretValue
          = some (values.get ⟨combinedResult userInput secretValue values.length, h⟩)
        ∧ computerThrow values userInput secretValue
          = some (values.get ⟨combinedResult userInput secretValue values.length, h⟩)
        ∧ combinedResult 4 3 6 = 1 := by
  have hpos : 0 < values.length := Nat.lt_of_le_of_lt (Nat.zero_le _) hu
  refine ⟨Nat.mod_lt _ hpos, ?_, ?_, rfl⟩ <;>
    simp [userThrow, computerThrow, roll, List.get?_eq_get (Nat.mod_lt _ hpos)]

/-- Witness for C1: die `[2,2,4,4,9,9]` (`F = 6`), input `4`, secret `3`. -/
theorem throw_combined_in_range_selects_face_witness :
    4 < ([2, 2, 4, 4, 9, 9] : List Int).length
    ∧ 3 < ([2, 2, 4, 4, 9, 9] : List Int).length
    ∧ ∃ h : combinedResult 4 3 ([2, 2, 4, 4, 9, 9] : List Int).length
              < ([2, 2, 4, 4, 9, 9] : List Int).length,
        userThrow [2, 2, 4, 4, 9, 9] 4 3
            = some (([2, 2, 4, 4, 9, 9] : List Int).get
                ⟨combinedResult 4 3 ([2, 2, 4, 4, 9, 9] : List Int).length, h⟩)
          ∧ computerThrow [2, 2, 4, 4, 9, 9] 4 3
            = some (([2, 2, 4, 4, 9, 9] : List Int).get
                ⟨combinedResult 4 3 ([2, 2, 4, 4, 9, 9] : List Int).length, h⟩)
          ∧ combinedResult 4 3 6 = 1 :=
  ⟨by decide, by decide,
    throw_combined_in_range_selects_face [2, 2, 4, 4, 9, 9] 4 3 (by decide) (by decide)⟩

/-- C4: for `N ≥ 1`, the sampler computes `limit = 2^32 - (2^32 mod N)`,
discards every draw `≥ limit` (so the result is determined by the first
accepted draw, via `List.find?`), returns `draw mod N` for that draw, and any
returned value lies in `[0, N)`. -/
theorem generateUniformRandom_rejection_sampling (max : Nat) (draws : List Nat)
    (hmax : 1 ≤ max) (hdraws : ∀ d ∈ draws, d < 2 ^ 32) :
    generateUniformRandom max draws
        = (draws.find? (fun d => d < 2 ^ 32 - 2 ^ 32 % max)).map
            (fun d => JsNum.val (d % max))
      ∧ ∀ r, generateUniformRandom max draws = some (.val r) → r < max := by
  have hne : max ≠ 0 := Nat.pos_iff_ne_zero.mp hmax
  constructor
  · induction draws with
    | nil => simp [generateUniformRandom]
    | cons d rest ih =>
      simp only [generateUniformRandom, hne, if_false, List.find?_cons]
      by_cases h : 2 ^ 32 - 2 ^ 32 % max ≤ d
      · have : (decide (d < 2 ^ 32 - 2 ^ 32 % max)) = false :=
          decide_eq_false (Nat.not_lt.mpr h)
        rw [if_pos h, this]
        exact ih (fun x hx => hdraws x (List.mem_cons_of_mem d hx))
      · have : (decide (d < 2 ^ 32 - 2 ^ 32 % max)) = true :=
          decide_eq_true (Nat.lt_of_not_le h)
        rw [if_neg h, this]
        simp
  · intro r hr
    induction draws with
    | nil => simp [generateUniformRandom] at hr
    | cons d rest ih =>
      simp only [generateUniformRandom, hne, if_false] at hr
      by_cases h : 2 ^ 32 - 2 ^ 32 % max ≤ d
      · rw [if_pos h] at hr
        exact ih (fun x hx => hdraws x (List.mem_cons_of_mem d hx)) hr
      · rw [if_neg h] at hr
        have : r = d % max := by
          cases hr' : hr
          rfl
        subst this
        exact Nat.mod_lt _ hmax

/-- Witness for C4: `N = 6`, first draw `4294967293 ≥ limit` is discarded,
second draw `10` is accepted and gives `10 % 6 = 4 < 6`. -/
theorem generateUniformRandom_rejection_sampling_witness :
    1 ≤ 6 ∧ (∀ d ∈ [4294967293, 10], d < 2 ^ 32)
    ∧ (generateUniformRandom 6 [4294967293, 10]
          = (([4294967293, 10] : List Nat).find? (fun d => d < 2 ^ 32 - 2 ^ 32 % 6)).map
              (fun d => JsNum.val (d % 6))
        ∧ ∀ r, generateUniformRandom 6 [4294967293, 10] = some (.val r) → r < 6) :=
  ⟨by decide, by decide,
    generateUniformRandom_rejection_sampling 6 [4294967293, 10] (by decide) (by decide)⟩

/-- Counterexample for C5: with range `N = 0 < 1`, `FairRandom` performs no
range validation and does not fail — on source semantics the `limit`
computation yields `NaN`, the loop guard is `false`, the very first entropy
draw is accepted, and the sampler returns `NaN` (`rand % 0`).  A session is
created with that `NaN` value rather than an `InvalidRange` error. -/
theorem generateUniformRandom_no_invalid_range_check :
    generateUniformRandom 0 [123] = some JsNum.nan := by
  rfl

/-- Amended C5: for `N = 0` (the only `N < 1` over naturals) and any nonempty
entropy stream, session creation does not fail with `InvalidRange`: the
sampler accepts the first draw immediately and produces the `NaN` value. -/
theorem generateUniformRandom_zero_range_nan (rand : Nat) (rest : List Nat) :
    generateUniformRandom 0 (rand :: rest) = some JsNum.nan := by
  rfl

/-- Observable events of one fair-random session, in the order the source
emits them (console output and input collection). -/
inductive Event
  | commitPublished (hmac : String)
  | counterpartInput (n : Nat)
  | reveal (key : String) (value : Nat)
  | finalized (result : Nat)
deriving DecidableEq

/-- Whether an event discloses the secret key and value. -/
def isReveal : Event → Bool
  | .reveal _ _ => true
  | _ => false

/-- Event trace of `DiceGame.userThrow` / `DiceGame.computerThrow`
(game.js lines 128–137 and 139–148): publish the HMAC commitment (line 130),
collect the counterpart's number (line 131), reveal the value and key
(line 133), compute the combined result (line 134). -/
def throwTrace (hmac key : String) (secretValue userInput n : Nat) : List Event :=
  [Event.commitPublished hmac,
   Event.counterpartInput userInput,
   Event.reveal key secretValue,
   Event.finalized (combinedResult userInput secretValue n)]

/-- Event trace of the turn-order decision in `DiceGame.start`
(game.js lines 95–109): publish the HMAC commitment (line 96), collect the
user's guess (line 97), reveal the selection and key (line 99). -/
def startTurnOrderTrace (hmac key : String) (secretValue userGuess : Nat) : List Event :=
  [Event.commitPublished hmac,
   Event.counterpartInput userGuess,
   Event.reveal key secretValue]

/-- C3: in every fair-random session execution — a throw or the turn-order
decision — any event revealing the secret key and value is strictly preceded
in the trace by the counterpart-input event: revelation never occurs before
the counterpart's input has been received. -/
theorem reveal_only_after_counterpart_input (hmac key : String)
    (secretValue input n k : Nat) (ev : Event) :
    ((throwTrace hmac key secretValue input n).get? k = some ev →
      isReveal ev = true →
      ∃ m, m < k ∧ ∃ j, (throwTrace hmac key secretValue input n).get? m
          = some (Event.counterpartInput j))
    ∧ ((startTurnOrderTrace hmac key secretValue input).get? k = some ev →
      isReveal ev = true →
      ∃ m, m < k ∧ ∃ j, (startTurnOrderTrace hmac key secretValue input).get? m
          = some (Event.counterpartInput j)) := by
  constructor
  · intro hget hrev
    match k, hget with
    | 0, hget =>
      simp only [throwTrace, List.get?] at hget
      rw [← Option.some_inj.mp hget] at hrev
      simp [isReveal] at hrev
    | 1, hget =>
      simp only [throwTrace, List.get?] at hget
      rw [← Option.some_inj.mp hget] at hrev
      simp [isReveal] at hrev
    | 2, _ =>
      exact ⟨1, by omega, input, rfl⟩
    | 3, hget =>
      simp only [throwTrace, List.get?] at hget
      rw [← Option.some_inj.mp hget] at hrev
      simp [isReveal] at hrev
    | (m + 4), hget =>
      simp [throwTrace, List.get?] at hget
  · intro hget hrev
    match k, hget with
    | 0, hget =>
      simp only [startTurnOrderTrace, List.get?] at hget
      rw [← Option.some_inj.mp hget] at hrev
      simp [isReveal] at hrev
    | 1, hget =>
      simp only [startTurnOrderTrace, List.get?] at hget
      rw [← Option.some_inj.mp hget] at hrev
      simp [isReveal] at hrev
    | 2, _ =>
      exact ⟨1, by omega, input, rfl⟩
    | (m + 3), hget =>
      simp [startTurnOrderTrace, List.get?] at hget

/-- Witness for C3: in a concrete throw session the reveal event at index 2
is preceded by the counterpart-input event at index 1. -/
theorem reveal_only_after_counterpart_input_witness :
    ∃ m, m < 2 ∧ ∃ j, (throwTrace "h" "k" 3 4 6).get? m
        = some (Event.counterpartInput j) :=
  (reveal_only_after_counterpart_input "h" "k" 3 4 6 2 (Event.reveal "k" 3)).1
    (by rfl) (by rfl)

/-- `FairRandom.calculateHMAC` (game.js lines 22–26): the commitment digest is
`HMAC-SHA3-256(key, value.toString())`.  The cryptographic primitive from the
`crypto` library is modelled as an explicit pure digest function over the key
and the decimal string of the value. -/
def calculateHMAC (hmacSha3 : List Nat → String → String)
    (key : List Nat) (value : Nat) : String :=
  hmacSha3 key (toString value)

/-- Modelled from the spec: `verify(key, value, digest)` is not implemented in
the source (the counterpart is expected to recompute the HMAC itself); per
spec §4.2 it recomputes `commit(key, value)` and compares for exact equality
with the published digest. -/
def verify (hmacSha3 : List Nat → String → String)
    (key : List Nat) (value : Nat) (digest : String) : Bool :=
  calculateHMAC hmacSha3 key value == digest

/-- C6: the commitment digest is a deterministic pure function of
`(key, value)` — equal keys and values give equal digests — and verifying the
revealed `(key, value)` against the originally published digest always
succeeds when nothing was tampered with. -/
theorem commit_deterministic_and_verifiable
    (hmacSha3 : List Nat → String → String)
    (key key' : List Nat) (value value' : Nat)
    (hk : key = key') (hv : value = value') :
    calculateHMAC hmacSha3 key value = calculateHMAC hmacSha3 key' value'
    ∧ verify hmacSha3 key value (calculateHMAC hmacSha3 key value) = true := by
  subst hk
  subst hv
  exact ⟨rfl, by simp [verify]⟩

/-- Witness for C6 at a concrete digest function, key and value. -/
theorem commit_deterministic_and_verifiable_witness :
    ([1, 2] : List Nat) = [1, 2] ∧ 3 = 3
    ∧ (calculateHMAC (fun _ s => s) [1, 2] 3 = calculateHMAC (fun _ s => s) [1, 2] 3
      ∧ verify (fun _ s => s) [1, 2] 3 (calculateHMAC (fun _ s => s) [1, 2] 3) = true) :=
  ⟨rfl, rfl,
    commit_deterministic_and_verifiable (fun _ s => s) [1, 2] [1, 2] 3 3 rfl rfl⟩

/-- Turn-order decision of `DiceGame.start` (game.js line 100):
`userFirst = userGuess === computerValue`; `true` means the user moves first,
`false` means the computer (committing party) moves first. -/
def startUserFirst (userGuess computerValue : Nat) : Bool :=
  userGuess == computerValue

/-- Who moves first, as reported by the second variant. -/
inductive Turn
  | user
  | computer
deriving DecidableEq

/-- `Game.determineTurnOrder` (part_000 lines 116–131): the user goes first
exactly when the guess equals the computer's committed value, otherwise the
computer goes first. -/
def determineTurnOrder (userGuess compVal : Nat) : Turn :=
  if userGuess = compVal then Turn.user else Turn.computer

/-- C8: in the turn-order decision over range `N = 2` with committed secret
value `1` and counterpart guess `0`, the combined result is `(0+1) mod 2 = 1`,
the guess does not match the committed value, and the committing party (the
computer) goes first in both variants. -/
theorem turn_order_secret_one_guess_zero :
    combinedResult 0 1 2 = 1
    ∧ startUserFirst 0 1 = false
    ∧ determineTurnOrder 0 1 = Turn.computer := by
  decide

/-- The triple reported per ordered pair of dice by part_000's
`ProbabilityCalculator.calculateProbability` (the spec's `ProbabilityCell`):
win count, total comparisons, and the percentage in hundredths of a percent. -/
structure ProbResult where
  wins : Nat
  total : Nat
  percentCenti : Nat
deriving DecidableEq

/-- JavaScript's `(probability * 100).toFixed(2)` (part_000 line 47), modelled
exactly over the rationals: `100 * wins / total` in hundredths of a percent,
rounded half-up. -/
def toFixed2Centi (wins total : Nat) : Nat :=
  (2 * (10000 * wins) + total) / (2 * total)

/-- `ProbabilityCalculator.calculateProbability` (part_000 lines 35–49):
nested loops over the two dice's faces, incrementing `total` on every pair and
`wins` when `roll1 > roll2`; reports `wins`, `total` and the rounded
percentage. -/
def calculateProbability (dice1 dice2 : List Int) : ProbResult :=
  let wt := dice1.foldl
    (fun acc roll1 => dice2.foldl
      (fun acc2 roll2 => (if roll1 > roll2 then acc2.1 + 1 else acc2.1, acc2.2 + 1)) acc)
    (0, 0)
  { wins := wt.1, total := wt.2, percentCenti := toFixed2Centi wt.1 wt.2 }

/-- The win counter of `ProbabilityCalculator.calculateProbabilities`
(game.js lines 50–56): nested `forEach` over `d1.values × d2.values`
incrementing `wins` when `v1 > v2`. -/
def winsGame (d1 d2 : List Int) : Nat :=
  d1.foldl (fun wins v1 => d2.foldl (fun acc v2 => if v1 > v2 then acc + 1 else acc) wins) 0

/-- game.js line 51: `total = d1.values.length * d2.values.length`. -/
def totalGame (d1 d2 : List Int) : Nat :=
  d1.length * d2.length

/-- Spec §4.4: the Cartesian product `dice[i].faces × dice[j].faces`. -/
def cartesianPairs (d1 d2 : List Int) : List (Int × Int) :=
  d1.bind (fun a => d2.map (fun b => (a, b)))

/-- Spec §4.4: `wins = |{(a,b) : a > b}|` over the Cartesian product. -/
def winsSpec (d1 d2 : List Int) : Nat :=
  ((cartesianPairs d1 d2).filter (fun p => decide (p.2 < p.1))).length

/-- Spec §4.4: the ties `a == b` over the Cartesian product; they count toward
neither direction's wins. -/
def tiesSpec (d1 d2 : List Int) : Nat :=
  ((cartesianPairs d1 d2).filter (fun p => decide (p.1 = p.2))).length

theorem innerFold_count (a : Int) (l : List Int) (w : Nat) :
    l.foldl (fun acc v2 => if a > v2 then acc + 1 else acc) w
      = w + l.countP (fun v2 => decide (v2 < a)) := by
  induction l generalizing w with
  | nil => simp
  | cons b l ih =>
    rw [List.foldl_cons, ih, List.countP_cons]
    by_cases h : b < a <;> simp [h] <;> omega

theorem winsGame_from (d1 d2 : List Int) (w : Nat) :
    d1.foldl (fun wins v1 => d2.foldl (fun acc v2 => if v1 > v2 then acc + 1 else acc) wins) w
      = w + (d1.map (fun a => d2.countP (fun b => decide (b < a)))).sum := by
  induction d1 generalizing w with
  | nil => simp
  | cons a l ih =>
    rw [List.foldl_cons, ih, innerFold_count]
    simp only [List.map_cons, List.sum_cons]
    omega

theorem innerPairFold (a : Int) (l : List Int) (w t : Nat) :
    l.foldl (fun acc2 r2 => (if a > r2 then acc2.1 + 1 else acc2.1, acc2.2 + 1)) (w, t)
      = (w + l.countP (fun b => decide (b < a)), t + l.length) := by
  induction l generalizing w t with
  | nil => simp
  | cons b l ih =>
    simp only [List.foldl_cons, ih, List.countP_cons, List.length_cons]
    by_cases h : b < a <;> simp [h, Prod.mk.injEq] <;> omega

theorem outerPairFold (l1 l2 : List Int) (w t : Nat) :
    l1.foldl (fun acc r1 => l2.foldl
        (fun acc2 r2 => (if r1 > r2 then acc2.1 + 1 else acc2.1, acc2.2 + 1)) acc) (w, t)
      = (w + (l1.map (fun a => l2.countP (fun b => decide (b < a)))).sum,
         t + l1.length * l2.length) := by
  induction l1 generalizing w t with
  | nil => simp
  | cons a l ih =>
    simp only [List.foldl_cons, innerPairFold, ih, List.map_cons, List.sum_cons,
      List.length_cons, Nat.succ_mul, Prod.mk.injEq]
    omega

/-- Closed form of `calculateProbability`. -/
theorem calculateProbability_eq (d1 d2 : List Int) :
    calculateProbability d1 d2
      = { wins := (d1.map (fun a => d2.countP (fun b => decide (b < a)))).sum,
          total := d1.length * d2.length,
          percentCenti := toFixed2Centi
            ((d1.map (fun a => d2.countP (fun b => decide (b < a)))).sum)
            (d1.length * d2.length) } := by
  unfold calculateProbability
  rw [outerPairFold]
  simp

theorem length_filter_pairRow (a : Int) (l : List Int) (p : Int × Int → Bool) :
    ((l.map (fun b => (a, b))).filter p).length = l.countP (fun b => p (a, b)) := by
  induction l with
  | nil => rfl
  | cons b l ih =>
    simp only [List.map_cons, List.filter_cons, List.countP_cons]
    by_cases h : p (a, b)
    · simp [h, ih]
    · simp [h, ih]

theorem filter_length_cartesian (p : Int × Int → Bool) (d1 d2 : List Int) :
    ((cartesianPairs d1 d2).filter p).length
      = (d1.map (fun a => d2.countP (fun b => p (a, b)))).sum := by
  induction d1 with
  | nil => simp [cartesianPairs]
  | cons a l ih =>
    simp only [cartesianPairs] at ih ⊢
    simp only [List.cons_bind, List.filter_append, List.length_append,
      List.map_cons, List.sum_cons, length_filter_pairRow, ih]

theorem winsSpec_eq_sum (d1 d2 : List Int) :
    winsSpec d1 d2 = (d1.map (fun a => d2.countP (fun b => decide (b < a)))).sum := by
  unfold winsSpec
  rw [filter_length_cartesian]

theorem tiesSpec_eq_sum (d1 d2 : List Int) :
    tiesSpec d1 d2 = (d1.map (fun a => d2.countP (fun b => decide (a = b)))).sum := by
  unfold tiesSpec
  rw [filter_length_cartesian]

theorem sum_countP_cons (a : Int) (p : Int → Int → Bool) (l l2 : List Int) :
    (l2.map (fun b => (a :: l).countP (fun x => p x b))).sum
      = l2.countP (fun b => p a b)
        + (l2.map (fun b => l.countP (fun x => p x b))).sum := by
  induction l2 with
  | nil => rfl
  | cons b l2 ih =>
    simp only [List.map_cons, List.sum_cons]
    rw [ih, List.countP_cons, List.countP_cons]
    omega

theorem sum_countP_comm (p : Int → Int → Bool) (l1 l2 : List Int) :
    (l1.map (fun a => l2.countP (fun b => p a b))).sum
      = (l2.map (fun b => l1.countP (fun a => p a b))).sum := by
  induction l1 with
  | nil => simp [List.countP_nil]
  | cons a l ih =>
    simp only [List.map_cons, List.sum_cons, ih, sum_countP_cons]

theorem countP_lt_gt_eq (a : Int) (l : List Int) :
    l.countP (fun b => decide (b < a)) + l.countP (fun b => decide (a < b))
      + l.countP (fun b => decide (a = b)) = l.length := by
  induction l with
  | nil => rfl
  | cons b l ih =>
    simp only [List.countP_cons, List.length_cons]
    rcases lt_trichotomy b a with h | h | h
    · simp [h, asymm h, h.ne']
      omega
    · simp [h]
      omega
    · simp [h, asymm h, h.ne]
      omega

theorem sum_three_counts (d1 d2 : List Int) :
    (d1.map (fun a => d2.countP (fun b => decide (b < a)))).sum
      + (d1.map (fun a => d2.countP (fun b => decide (a < b)))).sum
      + (d1.map (fun a => d2.countP (fun b => decide (a = b)))).sum
      = d1.length * d2.length := by
  induction d1 with
  | nil => simp
  | cons a l ih =>
    simp only [List.map_cons, List.sum_cons, List.length_cons, Nat.succ_mul]
    have htri := countP_lt_gt_eq a d2
    omega

/-- C2: for dice of `F` faces each, the probability engine's cell for the
ordered pair carries `wins` equal to the number of Cartesian-product pairs
`(a, b)` with `a > b`, `total = F × F`, and the percentage `100·wins/(F×F)`
(rounded to two decimals, as the source displays it); in particular for
`[2,2,4,4,9,9]` against `[1,1,6,6,8,8]` it yields `wins = 20`, `total = 36`,
percentage `55.56`. -/
theorem probability_cell_correct (d1 d2 : List Int) (F : Nat)
    (h1 : d1.length = F) (h2 : d2.length = F) :
    (calculateProbability d1 d2).wins = winsSpec d1 d2
    ∧ (calculateProbability d1 d2).total = F * F
    ∧ (calculateProbability d1 d2).percentCenti = toFixed2Centi (winsSpec d1 d2) (F * F)
    ∧ calculateProbability [2, 2, 4, 4, 9, 9] [1, 1, 6, 6, 8, 8]
        = { wins := 20, total := 36, percentCenti := 5556 } := by
  refine ⟨?_, ?_, ?_, by decide⟩
  · rw [calculateProbability_eq, winsSpec_eq_sum]
  · rw [calculateProbability_eq]
    dsimp only
    rw [h1, h2]
  · rw [calculateProbability_eq, winsSpec_eq_sum]
    dsimp only
    rw [h1, h2]

/-- Witness for C2 at Scenario A's dice with `F = 6`. -/
theorem probability_cell_correct_witness :
    ([2, 2, 4, 4, 9, 9] : List Int).length = 6
    ∧ ([1, 1, 6, 6, 8, 8] : List Int).length = 6
    ∧ ((calculateProbability [2, 2, 4, 4, 9, 9] [1, 1, 6, 6, 8, 8]).wins
          = winsSpec [2, 2, 4, 4, 9, 9] [1, 1, 6, 6, 8, 8]
      ∧ (calculateProbability [2, 2, 4, 4, 9, 9] [1, 1, 6, 6, 8, 8]).total = 6 * 6
      ∧ (calculateProbability [2, 2, 4, 4, 9, 9] [1, 1, 6, 6, 8, 8]).percentCenti
          = toFixed2Centi (winsSpec [2, 2, 4, 4, 9, 9] [1, 1, 6, 6, 8, 8]) (6 * 6)
      ∧ calculateProbability [2, 2, 4, 4, 9, 9] [1, 1, 6, 6, 8, 8]
          = { wins := 20, total := 36, percentCenti := 5556 }) :=
  ⟨rfl, rfl, probability_cell_correct [2, 2, 4, 4, 9, 9] [1, 1, 6, 6, 8, 8] 6 rfl rfl⟩

/-- C7: for dice of `F` faces each, the two directed win counts and the tie
count partition the `F²` face pairs: `wins(i,j) + wins(j,i) + ties(i,j) = F²`,
since a pair with `a == b` is counted toward neither direction's wins. -/
theorem wins_complement (d1 d2 : List Int) (F : Nat)
    (h1 : d1.length = F) (h2 : d2.length = F) :
    (calculateProbability d1 d2).wins + (calculateProbability d2 d1).wins
      + tiesSpec d1 d2 = F * F := by
  rw [calculateProbability_eq d1 d2, calculateProbability_eq d2 d1, tiesSpec_eq_sum]
  dsimp only
  rw [sum_countP_comm (fun a b => decide (b < a)) d2 d1]
  rw [sum_three_counts d1 d2, h1, h2]

/-- Witness for C7 at Scenario A's dice with `F = 6`. -/
theorem wins_complement_witness :
    ([2, 2, 4, 4, 9, 9] : List Int).length = 6
    ∧ ([1, 1, 6, 6, 8, 8] : List Int).length = 6
    ∧ (calculateProbability [2, 2, 4, 4, 9, 9] [1, 1, 6, 6, 8, 8]).wins
        + (calculateProbability [1, 1, 6, 6, 8, 8] [2, 2, 4, 4, 9, 9]).wins
        + tiesSpec [2, 2, 4, 4, 9, 9] [1, 1, 6, 6, 8, 8] = 6 * 6 :=
  ⟨rfl, rfl, wins_complement [2, 2, 4, 4, 9, 9] [1, 1, 6, 6, 8, 8] 6 rfl rfl⟩

/-- C10: the two observed probability-engine implementations agree on the
win-counting core: for dice of equal face counts, game.js's nested-`forEach`
win counter and pair total equal part_000's `calculateProbability` `wins` and
`total`. -/
theorem engines_win_counting_equivalent (d1 d2 : List Int)
    (h : d1.length = d2.length) :
    winsGame d1 d2 = (calculateProbability d1 d2).wins
    ∧ totalGame d1 d2 = (calculateProbability d1 d2).total := by
  rw [calculateProbability_eq]
  dsimp only
  constructor
  · unfold winsGame
    rw [winsGame_from]
    omega
  · rfl

/-- Witness for C10 at two six-faced dice. -/
theorem engines_win_counting_equivalent_witness :
    ([7, 5, 3, 7, 5, 3] : List Int).length = ([6, 8, 1, 1, 8, 6] : List Int).length
    ∧ (winsGame [7, 5, 3, 7, 5, 3] [6, 8, 1, 1, 8, 6]
          = (calculateProbability [7, 5, 3, 7, 5, 3] [6, 8, 1, 1, 8, 6]).wins
      ∧ totalGame [7, 5, 3, 7, 5, 3] [6, 8, 1, 1, 8, 6]
          = (calculateProbability [7, 5, 3, 7, 5, 3] [6, 8, 1, 1, 8, 6]).total) :=
  ⟨rfl, engines_win_counting_equivalent [7, 5, 3, 7, 5, 3] [6, 8, 1, 1, 8, 6] rfl⟩

/-- The result of JavaScript's `Number(token)` on one comma-separated token
(part_000 line 28): either an integer, or a value that is not an integer
(`NaN` for a non-numeric token, or a fractional number). -/
inductive NumVal
  | int (n : Int)
  | nonInt
deriving DecidableEq

/-- `Number.isInteger` on a parsed token. -/
def isIntegerNum : NumVal → Bool
  | .int _ => true
  | .nonInt => false

/-- The `Dice` constructor (part_000 lines 6–12): throws unless the die has
exactly 6 values, all integers. -/
def diceNew (values : List NumVal) : Except String (List NumVal) :=
  if values.length ≠ 6 || !(values.all isIntegerNum) then
    Except.error "Each dice must have 6 integer values."
  else
    Except.ok values

/-- The `forEach` loop of `DiceConfiguration.parseArgs` (part_000 lines
27–30): construct each die in order, propagating the first thrown error. -/
def buildDice : List (List NumVal) → Except String (List (List NumVal))
  | [] => Except.ok []
  | arg :: rest =>
    match diceNew arg with
    | Except.error e => Except.error e
    | Except.ok d =>
      match buildDice rest with
      | Except.error e => Except.error e
      | Except.ok ds => Except.ok (d :: ds)

/-- `DiceConfiguration.parseArgs` (part_000 lines 23–31): at least three dice
configurations are required, then every argument is parsed into a die. -/
def parseArgs (args : List (List NumVal)) : Except String (List (List NumVal)) :=
  if args.length < 3 then
    Except.error "At least three dice configurations are required."
  else
    buildDice args

theorem buildDice_error_of_bad (args : List (List NumVal)) (die : List NumVal)
    (hmem : die ∈ args) (hbad : die.length ≠ 6 ∨ ¬ die.all isIntegerNum = true) :
    ∃ e, buildDice args = Except.error e := by
  induction args with
  | nil => cases hmem
  | cons a rest ih =>
    rcases List.mem_cons.mp hmem with h | h
    · subst h
      have : diceNew die = Except.error "Each dice must have 6 integer values." := by
        unfold diceNew
        rcases hbad with h' | h'
        · rw [if_pos]
          simp [h']
        · rw [if_pos]
          simp only [Bool.or_eq_true, Bool.not_eq_true']
          right
          exact Bool.not_eq_true _ ▸ (by simpa using h')
      refine ⟨"Each dice must have 6 integer values.", ?_⟩
      simp [buildDice, this]
    · obtain ⟨e, he⟩ := ih h
      cases hd : diceNew a with
      | error e' => exact ⟨e', by simp [buildDice, hd]⟩
      | ok v => exact ⟨e, by simp [buildDice, hd, he]⟩

theorem buildDice_ok_of_good (args : List (List NumVal))
    (hgood : ∀ die ∈ args, die.length = 6 ∧ die.all isIntegerNum = true) :
    buildDice args = Except.ok args := by
  induction args with
  | nil => rfl
  | cons a rest ih =>
    obtain ⟨hlen, hint⟩ := hgood a (List.mem_cons_self a rest)
    have hd : diceNew a = Except.ok a := by
      unfold diceNew
      rw [if_neg]
      simp [hlen, hint]
    simp [buildDice, hd, ih (fun die h => hgood die (List.mem_cons_of_mem a h))]

/-- part_000's `DiceConfiguration`/`Dice` validation: rejects fewer than 3
dice, a die without exactly 6 values, and a die with a non-integer value;
accepts a valid configuration unchanged. -/
theorem part000_diceConfiguration_spec (args : List (List NumVal)) :
    (args.length < 3 → ∃ e, parseArgs args = Except.error e)
    ∧ (∀ die ∈ args, (die.length ≠ 6 ∨ ¬ die.all isIntegerNum = true) →
        ∃ e, parseArgs args = Except.error e)
    ∧ (3 ≤ args.length →
        (∀ die ∈ args, die.length = 6 ∧ die.all isIntegerNum = true) →
        parseArgs args = Except.ok args) := by
  refine ⟨?_, ?_, ?_⟩
  · intro h
    exact ⟨"At least three dice configurations are required.", by simp [parseArgs, h]⟩
  · intro die hmem hbad
    by_cases h : args.length < 3
    · exact ⟨"At least three dice configurations are required.", by simp [parseArgs, h]⟩
    · obtain ⟨e, he⟩ := buildDice_error_of_bad args die hmem hbad
      exact ⟨e, by simp [parseArgs, h, he]⟩
  · intro h hgood
    have : ¬ args.length < 3 := by omega
    simp [parseArgs, this, buildDice_ok_of_good args hgood]

/-- One comma-separated dice token of game.js, classified by the two
observables `DiceParser.parseDice` uses on it: JavaScript's `isNaN(value)`
(which coerces the token with `Number`) and `parseInt(value, 10)`.
`intTok n` is a decimal integer token such as `"7"`; `fracTok t` is a numeric
but non-integer token such as `"9.5"`, for which `isNaN` is `false` and
`parseInt` truncates to `t` (`9` for `"9.5"`); `nonNumTok` is a token whose
`Number` coercion is `NaN`, such as `"abc"`, for which `isNaN` is `true`. -/
inductive Token
  | intTok (n : Int)
  | fracTok (trunc : Int)
  | nonNumTok
deriving DecidableEq

/-- JavaScript `isNaN(value)` on a token (game.js line 194). -/
def tokenIsNaN : Token → Bool
  | .nonNumTok => true
  | _ => false

/-- JavaScript `parseInt(value, 10)` on a token (game.js line 202); in
`parseDice` it is only reached when `isNaN(value)` is `false`. -/
def tokenParseInt : Token → Int
  | .intTok n => n
  | .fracTok t => t
  | .nonNumTok => 0

/-- Whether the token denotes an integer (the spec's notion of a valid face
token). -/
def tokenIsInteger : Token → Bool
  | .intTok _ => true
  | _ => false

/-- The inner `arg.split(',').map(...)` of `DiceParser.parseDice`
(game.js lines 193–203): `process.exit(1)` (modelled `none`) at the first
token with `isNaN(value)`, otherwise collect `parseInt(value, 10)`. -/
def parseDieTokens : List Token → Option (List Int)
  | [] => some []
  | t :: rest =>
    if tokenIsNaN t then none
    else
      match parseDieTokens rest with
      | none => none
      | some vs => some (tokenParseInt t :: vs)

/-- One die of `DiceParser.parseDice` (game.js lines 192–213): map the
tokens, then exit unless exactly 6 values resulted. -/
def parseDiceArg (tokens : List Token) : Option (List Int) :=
  match parseDieTokens tokens with
  | none => none
  | some values => if values.length ≠ 6 then none else some values

/-- The `args.map(...)` of `DiceParser.parseDice` (game.js lines 192–213),
propagating the first exit. -/
def parseDiceAll : List (List Token) → Option (List (List Int))
  | [] => some []
  | arg :: rest =>
    match parseDiceArg arg with
    | none => none
    | some d =>
      match parseDiceAll rest with
      | none => none
      | some ds => some (d :: ds)

/-- `DiceParser.parseDice` (game.js lines 184–215): fewer than three
configurations exit the process (modelled `none`), otherwise every argument
is parsed into a die. -/
def parseDice (args : List (List Token)) : Option (List (List Int)) :=
  if args.length < 3 then none else parseDiceAll args

theorem parseDieTokens_clean (ts : List Token)
    (h : ∀ t ∈ ts, tokenIsNaN t = false) :
    parseDieTokens ts = some (ts.map tokenParseInt) := by
  induction ts with
  | nil => rfl
  | cons a rest ih =>
    have ha := h a (List.mem_cons_self a rest)
    simp [parseDieTokens, ha, ih (fun t ht => h t (List.mem_cons_of_mem a ht))]

theorem parseDieTokens_nan (ts : List Token) (t : Token)
    (hmem : t ∈ ts) (hnan : tokenIsNaN t = true) :
    parseDieTokens ts = none := by
  induction ts with
  | nil => cases hmem
  | cons a rest ih =>
    rcases List.mem_cons.mp hmem with h | h
    · subst h
      simp [parseDieTokens, hnan]
    · by_cases ha : tokenIsNaN a = true
      · simp [parseDieTokens, ha]
      · simp [parseDieTokens, ha, ih h]

theorem parseDiceAll_none (args : List (List Token)) (arg : List Token)
    (hmem : arg ∈ args) (hbad : parseDiceArg arg = none) :
    parseDiceAll args = none := by
  induction args with
  | nil => cases hmem
  | cons a rest ih =>
    rcases List.mem_cons.mp hmem with h | h
    · subst h
      simp [parseDiceAll, hbad]
    · cases hd : parseDiceArg a with
      | none => simp [parseDiceAll, hd]
      | some d => simp [parseDiceAll, hd, ih h]

theorem parseDiceAll_ok (args : List (List Token))
    (h : ∀ arg ∈ args, parseDiceArg arg = some (arg.map tokenParseInt)) :
    parseDiceAll args = some (args.map (fun arg => arg.map tokenParseInt)) := by
  induction args with
  | nil => rfl
  | cons a rest ih =>
    simp [parseDiceAll, h a (List.mem_cons_self a rest),
      ih (fun arg ha => h arg (List.mem_cons_of_mem a ha))]

/-- Token lists for the C9 scenarios: `"2,2,4,4,9,9"`, `"1,1,6,6,8,8"`,
`"7,5,3,7,5,3"`, the five-token `"2,2,4,4,9"`, a die with the non-numeric
token `"abc"`, and the die `"2,2,4,4,9,9.5"` with a numeric non-integer
token. -/
def tokA : List Token :=
  [.intTok 2, .intTok 2, .intTok 4, .intTok 4, .intTok 9, .intTok 9]

def tokB : List Token :=
  [.intTok 1, .intTok 1, .intTok 6, .intTok 6, .intTok 8, .intTok 8]

def tokC : List Token :=
  [.intTok 7, .intTok 5, .intTok 3, .intTok 7, .intTok 5, .intTok 3]

def tokFive : List Token :=
  [.intTok 2, .intTok 2, .intTok 4, .intTok 4, .intTok 9]

def tokBad : List Token :=
  [.intTok 2, .intTok 2, .intTok 4, .intTok 4, .intTok 9, .nonNumTok]

def tokFrac : List Token :=
  [.intTok 2, .intTok 2, .intTok 4, .intTok 4, .intTok 9, .fracTok 9]

/-- Counterexample for C9: game.js `DiceParser.parseDice` validates tokens
only with `isNaN`; for the non-integer token `"9.5"` (modelled
`Token.fracTok 9`) `isNaN("9.5")` is `false`, so the die `"2,2,4,4,9,9.5"`
passes validation and `parseInt` silently truncates the token to `9` — a die
containing a non-integer token is accepted, not rejected. -/
theorem parseDice_accepts_noninteger_token :
    tokenIsInteger (Token.fracTok 9) = false
    ∧ Token.fracTok 9 ∈ tokFrac
    ∧ parseDice [tokFrac, tokB, tokC]
        = some [[2, 2, 4, 4, 9, 9], [1, 1, 6, 6, 8, 8], [7, 5, 3, 7, 5, 3]] := by
  decide

/-- Amended C9: both variants reject fewer than 3 dice and a die whose face
count differs from 6, and accept a valid list of at least 3 dice of exactly 6
integer tokens each.  On non-integer tokens they differ: part_000's
`DiceConfiguration` rejects every die containing a non-integer value, while
game.js's `parseDice` rejects only tokens whose `Number` coercion is `NaN`
and accepts numeric non-integer tokens, truncating them with `parseInt`
(accepted dice parse to their `parseInt` images). -/
theorem dice_validation_amended (args : List (List Token))
    (cfgs : List (List NumVal)) :
    (args.length < 3 → parseDice args = none)
    ∧ (∀ die ∈ args, (∃ t ∈ die, tokenIsNaN t = true) → parseDice args = none)
    ∧ (∀ die ∈ args, (∀ t ∈ die, tokenIsNaN t = false) → die.length ≠ 6 →
        parseDice args = none)
    ∧ (3 ≤ args.length →
        (∀ die ∈ args, die.length = 6 ∧ ∀ t ∈ die, tokenIsNaN t = false) →
        parseDice args = some (args.map (fun die => die.map tokenParseInt)))
    ∧ (cfgs.length < 3 → ∃ e, parseArgs cfgs = Except.error e)
    ∧ (∀ die ∈ cfgs, (die.length ≠ 6 ∨ ¬ die.all isIntegerNum = true) →
        ∃ e, parseArgs cfgs = Except.error e)
    ∧ (3 ≤ cfgs.length →
        (∀ die ∈ cfgs, die.length = 6 ∧ die.all isIntegerNum = true) →
        parseArgs cfgs = Except.ok cfgs) := by
  refine ⟨?_, ?_, ?_, ?_, (part000_diceConfiguration_spec cfgs).1,
    (part000_diceConfiguration_spec cfgs).2.1,
    (part000_diceConfiguration_spec cfgs).2.2⟩
  · intro h
    simp [parseDice, h]
  · intro die hmem hnan
    obtain ⟨t, ht, hnan⟩ := hnan
    by_cases h : args.length < 3
    · simp [parseDice, h]
    · have harg : parseDiceArg die = none := by
        simp [parseDiceArg, parseDieTokens_nan die t ht hnan]
      simp [parseDice, h, parseDiceAll_none args die hmem harg]
  · intro die hmem hclean hlen
    by_cases h : args.length < 3
    · simp [parseDice, h]
    · have harg : parseDiceArg die = none := by
        simp [parseDiceArg, parseDieTokens_clean die hclean, hlen]
      simp [parseDice, h, parseDiceAll_none args die hmem harg]
  · intro h hgood
    have hn : ¬ args.length < 3 := by omega
    have hall : ∀ arg ∈ args, parseDiceArg arg = some (arg.map tokenParseInt) := by
      intro arg ha
      obtain ⟨hlen, hclean⟩ := hgood arg ha
      simp [parseDiceArg, parseDieTokens_clean arg hclean, hlen]
    simp [parseDice, hn, parseDiceAll_ok args hall]

/-- Configurations for the part_000 side of the C9 witness. -/
def cfgA : List NumVal :=
  [.int 2, .int 2, .int 4, .int 4, .int 9, .int 9]

def cfgB : List NumVal :=
  [.int 1, .int 1, .int 6, .int 6, .int 8, .int 8]

def cfgC : List NumVal :=
  [.int 7, .int 5, .int 3, .int 7, .int 5, .int 3]

def cfgFive : List NumVal :=
  [.int 2, .int 2, .int 4, .int 4, .int 9]

/-- Witness for the amended C9 (Scenario D instances): two dice are too few;
a die with a `NaN` token is rejected; a five-token die is rejected; three
six-integer dice are accepted — on both variants. -/
theorem dice_validation_amended_witness :
    parseDice [tokA, tokB] = none
    ∧ parseDice [tokBad, tokB, tokC] = none
    ∧ parseDice [tokFive, tokB, tokC] = none
    ∧ parseDice [tokA, tokB, tokC]
        = some [[2, 2, 4, 4, 9, 9], [1, 1, 6, 6, 8, 8], [7, 5, 3, 7, 5, 3]]
    ∧ (∃ e, parseArgs [cfgA, cfgB] = Except.error e)
    ∧ (∃ e, parseArgs [cfgFive, cfgB, cfgC] = Except.error e)
    ∧ parseArgs [cfgA, cfgB, cfgC] = Except.ok [cfgA, cfgB, cfgC] := by
  refine ⟨?_, ?_, ?_, ?_, ?_, ?_, ?_⟩
  · exact (dice_validation_amended [tokA, tokB] []).1 (by decide)
  · exact (dice_validation_amended [tokBad, tokB, tokC] []).2.1 tokBad
      (by decide) ⟨Token.nonNumTok, by decide, rfl⟩
  · exact (dice_validation_amended [tokFive, tokB, tokC] []).2.2.1 tokFive
      (by decide) (by decide) (by decide)
  · simpa [tokA, tokB, tokC, tokenParseInt] using
      (dice_validation_amended [tokA, tokB, tokC] []).2.2.2.1 (by decide) (by decide)
  · exact (dice_validation_amended [] [cfgA, cfgB]).2.2.2.2.1 (by decide)
  · exact (dice_validation_amended [] [cfgFive, cfgB, cfgC]).2.2.2.2.2.1 cfgFive
      (by decide) (Or.inl (by decide))
  · exact (dice_validation_amended [] [cfgA, cfgB, cfgC]).2.2.2.2.2.2
      (by decide) (by decide)

end DiceGame
